import Mathlib

/-!
Verification of the schedule-generation engine of `src/app.py`.

The engine lives inside `generate_schedule` in `app.py`: a four-phase greedy
assignment algorithm with per-employee rotation-state tracking, a scoring
function, a conflict checker and a dynamic staffing resolver.  We give a
shallow embedding of that code and prove the specification claims about it.

Modelling conventions:
* Dates (`"YYYY-MM-DD"` strings in the source) are modelled as natural
  numbers counting days from a reference Monday, so `d % 7` is the weekday
  index exactly as Python's `datetime.weekday()` (0 = Monday).  Parsing and
  formatting of date strings is the identity on this domain.
* Python dicts (insertion ordered, unique keys) are modelled as association
  lists with first-match lookup (`alookup`), first-match replace-or-append
  update (`aset`) and first-match in-place value update (`aupdate`).
* The source stores an employee's unavailable dates as a comma-separated
  string of full `"YYYY-MM-DD"` dates and tests `date in unavailable_days`
  (substring).  For full fixed-width dates joined by commas the substring
  test coincides with membership, so we model the field as a list of dates
  with list membership.
* Dict accesses `d[k]` that would raise `KeyError` in Python are modelled
  with `getD` defaults; every such access in the engine happens on keys that
  are present, and the claims' theorems carry the corresponding lookup
  hypotheses explicitly.
* Python `float` scores are modelled as `ℚ`; all score constants (10, ±5,
  50, −10, −3, 0.1) are exact and the additive structure is unchanged.
* Conflict messages (Chinese format strings) are modelled by an inductive
  `Conflict` type carrying the same distinguishing data; the source merely
  interpolates these data into fixed message templates.
-/

namespace ScheduleSystem

/-- Association-list lookup: first pair whose key matches (Python `dict[k]` /
`dict.get(k)`). -/
def alookup {κ β : Type} [DecidableEq κ] : List (κ × β) → κ → Option β
  | [], _ => none
  | p :: ps, k => if p.1 = k then some p.2 else alookup ps k

/-- Association-list write `d[k] = v`: replace the first binding of `k`,
else append (Python dict assignment keeps insertion order). -/
def aset {κ β : Type} [DecidableEq κ] : List (κ × β) → κ → β → List (κ × β)
  | [], k, v => [(k, v)]
  | p :: ps, k, v => if p.1 = k then (k, v) :: ps else p :: aset ps k v

/-- Association-list in-place value update at key `k` (no-op when absent). -/
def aupdate {κ β : Type} [DecidableEq κ] : List (κ × β) → κ → (β → β) → List (κ × β)
  | [], _, _ => []
  | p :: ps, k, f => if p.1 = k then (p.1, f p.2) :: ps else p :: aupdate ps k f

/-- `get_weekday_chinese` from `app.py` (via `weekday_map`): the Chinese
weekday name for weekday index `n` (0 = Monday … 6 = Sunday). -/
def weekdayName (n : Nat) : String :=
  if n = 0 then "周一"
  else if n = 1 then "周二"
  else if n = 2 then "周三"
  else if n = 3 then "周四"
  else if n = 4 then "周五"
  else if n = 5 then "周六"
  else "周日"

/-- Python substring test `needle in haystack` on character lists. -/
def containsSub (n : List Char) : List Char → Bool
  | [] => n.isEmpty
  | c :: rest => n.isPrefixOf (c :: rest) || containsSub n rest

/-- Python substring test on strings (`"早早" in shift_id`). -/
def strContains (needle hay : String) : Bool :=
  containsSub needle.data hay.data

/-- Employee record: the fields of the `employees[emp_id]` dicts consumed by
the generation engine. -/
structure Employee where
  name : String
  skills : List String
  rest_day : String
  preferred_shifts : List String
  unavailable_days : List Nat
  deriving DecidableEq, Repr

/-- Shift record: the fields of the `shifts[shift_id]` dicts consumed by the
generation engine.  The source reads them with `.get` defaults; in this model
the fields are always present. -/
structure Shift where
  required_skills : List String
  required_staff : Nat
  duration_hours : ℚ
  deriving DecidableEq, Repr

/-- Per-date schedule entry: `schedule[date_str]` with its `assignments`
(employee id → shift id) and `shift_counts` (shift id → count) dicts. -/
structure DayEntry where
  assignments : List (String × String)
  shift_counts : List (String × Nat)
  deriving DecidableEq, Repr

/-- Per-employee rotation state: `employee_shift_cycle[emp_id]`. -/
structure CycleInfo where
  current_type : Option String
  last_work_date : Option Nat
  rested : Bool
  deriving DecidableEq, Repr

/-- Per-employee workload tracker: `employee_workload[emp_id]`. -/
structure Workload where
  days : Nat
  hours : ℚ
  deriving DecidableEq, Repr

/-- The read-only inputs of one generation run: the employee and shift
dicts plus the special rules read at the top of the generation block. -/
structure Env where
  employees : List (String × Employee)
  shifts : List (String × Shift)
  fixedEmployees : List String
  mondayNoEarlyEarly : Bool
  deriving DecidableEq, Repr

/-- The hardcoded designated trigger shift `fixed_early_early_shift`
(`"二期水吧-早早班"`). -/
def fixedShiftId : String := "二期水吧-早早班"

/-- The hardcoded dependent shift (`"二期水吧-早班"`) of the dynamic
staffing rule. -/
def earlyShiftId : String := "二期水吧-早班"

/-- The default `{}` results of `employees.get(emp_id, {})`-style misses. -/
def defaultEmployee : Employee := ⟨"", [], "", [], []⟩

/-- Default shift record; `required_staff` mirrors the `.get("required_staff", 1)`
default. -/
def defaultShift : Shift := ⟨[], 1, 8⟩

/-- Default (empty) day entry. -/
def defaultEntry : DayEntry := ⟨[], []⟩

/-- Default rotation state `{}`: `current_type`/`last_work_date` read as `None`. -/
def defaultCycle : CycleInfo := ⟨none, none, false⟩

/-- Default workload (never hit: every employee id is initialised). -/
def defaultWorkload : Workload := ⟨0, 0⟩

/-- One entry of the `flexible_shifts` literal. -/
structure FlexCfg where
  allow_empty : Bool
  required_staff : Option Nat
  deriving DecidableEq, Repr

/-- The `flexible_shifts` literal: only `"二期水吧-早班"`, with
`allow_empty = True` and no `required_staff` override. -/
def flexibleShifts : List (String × FlexCfg) := [(earlyShiftId, ⟨true, none⟩)]

/-- A schedule: the `schedule` dict, one `DayEntry` per date. -/
abbrev Schedule := List (Nat × DayEntry)

/-- Violation reasons produced by `check_conflicts`; the source appends
formatted message strings, we keep the violation kind and its data. -/
inductive Conflict
  | unknownEmployee (empId : String)
  | unknownShift (shiftId : String)
  | restDay (empId : String) (weekday : String)
  | unavailable (empId : String) (date : Nat)
  | missingSkills (empId : String)
  | alreadyAssigned (empId : String) (date : Nat)
  deriving DecidableEq, Repr

/-- `check_conflicts(emp_id, shift_id, date, schedule)` from `app.py`
(lines 1141–1180): early return on unknown employee or shift, then the
rest-weekday, unavailable-date, skill and already-assigned checks, each
appending one violation. -/
def check_conflicts (env : Env) (empId shiftId : String) (date : Nat)
    (schedule : Schedule) : List Conflict :=
  match alookup env.employees empId with
  | none => [.unknownEmployee empId]
  | some emp =>
    match alookup env.shifts shiftId with
    | none => [.unknownShift shiftId]
    | some shift =>
      (if emp.rest_day ≠ "" ∧ weekdayName (date % 7) = emp.rest_day then
        [.restDay empId (weekdayName (date % 7))] else [])
      ++ (if emp.unavailable_days ≠ [] ∧ date ∈ emp.unavailable_days then
        [.unavailable empId date] else [])
      ++ (if shift.required_skills ≠ [] ∧
            ¬ (shift.required_skills.any (fun sk => emp.skills.contains sk)) then
        [.missingSkills empId] else [])
      ++ (match alookup schedule date with
        | some entry =>
          if (alookup entry.assignments empId).isSome then
            [.alreadyAssigned empId date] else []
        | none => [])

/-- `get_shift_type(shift_id)`: substring classification of a shift id into
早早班 / 早班 / 晚班 / 中班 / 其他, in that priority order. -/
def get_shift_type (shiftId : String) : String :=
  if strContains "早早" shiftId then "早早班"
  else if strContains "早" shiftId then "早班"
  else if strContains "晚" shiftId then "晚班"
  else if strContains "中" shiftId then "中班"
  else "其他"

/-- `get_opposite_shift_type(shift_type)`: 早班 ↔ 晚班, all else unchanged. -/
def get_opposite_shift_type (shiftType : String) : String :=
  if shiftType = "早班" then "晚班"
  else if shiftType = "晚班" then "早班"
  else shiftType

/-- The `while check_date <= current_date` loop of `check_if_rested`: does
some day `x` with `lw < x ≤ d` fall on the weekday named `r`? -/
def anyRestDayBetween (r : String) (lw d : Nat) : Bool :=
  ((List.range (d - lw)).map (fun i => lw + 1 + i)).any
    (fun x => weekdayName (x % 7) == r)

/-- `check_if_rested(emp_id, current_date_str)` from `app.py` (lines
1312–1339): false when no last-worked date or no fixed rest weekday,
otherwise true iff some day strictly after the last-worked date and up to
the current date falls on the rest weekday. -/
def check_if_rested (env : Env) (cycle : List (String × CycleInfo))
    (empId : String) (d : Nat) : Bool :=
  match ((alookup cycle empId).getD defaultCycle).last_work_date with
  | none => false
  | some lw =>
    let restDay := ((alookup env.employees empId).getD defaultEmployee).rest_day
    if restDay = "" then false
    else anyRestDayBetween restDay lw d

/-- Truthiness of the `schedule` argument of `get_required_staff`
(`None` and `{}` are falsy). -/
def schedTruthy : Option Schedule → Bool
  | some l => !l.isEmpty
  | none => false

/-- The trigger-shift count read by the dynamic staffing rule:
`schedule.get(date_str, {}).get("shift_counts", {}).get(early_early_shift_id, 0)`. -/
def triggerCount (schedule : Schedule) (d : Nat) : Nat :=
  match alookup schedule d with
  | some entry => (alookup entry.shift_counts fixedShiftId).getD 0
  | none => 0

/-- `get_required_staff(shift_id, date_str, schedule)` from `app.py` (lines
1392–1411): for the dependent shift (with a date and a truthy schedule
supplied) 2 when the trigger shift's count that day is 0, else 1; otherwise
the `flexible_shifts` override when present (it never is), else the shift's
configured `required_staff`. -/
def get_required_staff (env : Env) (shiftId : String) (dateOpt : Option Nat)
    (schedOpt : Option Schedule) : Nat :=
  if shiftId == earlyShiftId && dateOpt.isSome && schedTruthy schedOpt then
    if triggerCount (schedOpt.getD []) (dateOpt.getD 0) = 0 then 2 else 1
  else
    match alookup flexibleShifts shiftId with
    | some cfg =>
      match cfg.required_staff with
      | some n => n
      | none => ((alookup env.shifts shiftId).getD defaultShift).required_staff
    | none => ((alookup env.shifts shiftId).getD defaultShift).required_staff

/-- `is_allow_empty(shift_id)` from `app.py`. -/
def is_allow_empty (shiftId : String) : Bool :=
  match alookup flexibleShifts shiftId with
  | some cfg => cfg.allow_empty
  | none => false

/-- `get_employee_score(emp_id, shift_id, date_str, current_workload)` from
`app.py` (lines 1341–1390): workload-days, skill, preference and hours terms,
an early return for fixed early-early employees, then the rotation term. -/
def get_employee_score (env : Env) (cycle : List (String × CycleInfo))
    (workload : List (String × Workload)) (empId shiftId : String)
    (d : Nat) : ℚ :=
  let emp := (alookup env.employees empId).getD defaultEmployee
  let shift := (alookup env.shifts shiftId).getD defaultShift
  let w := (alookup workload empId).getD defaultWorkload
  let s1 : ℚ := (w.days : ℚ) * 10
  let s2 : ℚ := s1 + (if shift.required_skills ≠ [] then
    (if shift.required_skills.any (fun sk => emp.skills.contains sk) then
      (-10 : ℚ) else 50) else 0)
  let s3 : ℚ := s2 + (if emp.preferred_shifts.contains shiftId then (-5 : ℚ) else 0)
  let s4 : ℚ := s3 + w.hours * (0.1 : ℚ)
  if env.fixedEmployees.contains empId then s4
  else
    let newType := get_shift_type shiftId
    let currentType := ((alookup cycle empId).getD defaultCycle).current_type
    let justRested := check_if_rested env cycle empId d
    s4 + (match currentType with
      | some t =>
        if justRested ∧ (t = "早班" ∨ t = "晚班") then
          (if newType = get_opposite_shift_type t then (-5 : ℚ) else 0)
        else (if newType = t then (-3 : ℚ) else 0)
      | none => 0)

/-- The mutable state threaded through a generation run: the schedule plus
the `employee_workload` and `employee_shift_cycle` trackers. -/
structure GenState where
  schedule : Schedule
  workload : List (String × Workload)
  cycle : List (String × CycleInfo)
  deriving DecidableEq, Repr

/-- Current count of a shift on a date:
`schedule[date_str]["shift_counts"].get(shift_id, 0)`. -/
def countAt (schedule : Schedule) (d : Nat) (shiftId : String) : Nat :=
  (alookup ((alookup schedule d).getD defaultEntry).shift_counts shiftId).getD 0

/-- The common commit `schedule[date]["assignments"][emp] = shift;`
`schedule[date]["shift_counts"][shift] = count + 1` applied to one day
entry.  (In `assign_employee_to_shift` the written count is the value read
at function entry; nothing mutates the entry in between, so re-reading it
here is the same value.) -/
def commitAssign (empId shiftId : String) (entry : DayEntry) : DayEntry :=
  { assignments := aset entry.assignments empId shiftId
    shift_counts := aset entry.shift_counts shiftId
      ((alookup entry.shift_counts shiftId).getD 0 + 1) }

/-- The workload update on a successful assignment: `days += 1`,
`hours += shift.get("duration_hours", 8)`. -/
def bumpWorkload (env : Env) (empId shiftId : String)
    (workload : List (String × Workload)) : List (String × Workload) :=
  let dur := ((alookup env.shifts shiftId).getD defaultShift).duration_hours
  let w := (alookup workload empId).getD defaultWorkload
  aset workload empId ⟨w.days + 1, w.hours + dur⟩

/-- The rotation-state update of `assign_employee_to_shift` (lines
1456–1474): on `just_rested` start a new cycle with the new shift type;
otherwise initialise `current_type` only when unset, and record the work
date with `rested = False`. -/
def updateCycleOnAssign (env : Env) (cycle : List (String × CycleInfo))
    (empId : String) (d : Nat) (shiftId : String) : List (String × CycleInfo) :=
  let newType := get_shift_type shiftId
  let info := (alookup cycle empId).getD defaultCycle
  if check_if_rested env cycle empId d then
    aset cycle empId ⟨some newType, some d, true⟩
  else
    aset cycle empId ⟨some (info.current_type.getD newType), some d, false⟩

/-- The rotation-state update of the phase-4 assignment site (lines
1636–1650); identical to `updateCycleOnAssign` except that the `rested`
flag is left unchanged in the not-just-rested branch. -/
def updateCyclePhase4 (env : Env) (cycle : List (String × CycleInfo))
    (empId : String) (d : Nat) (shiftId : String) : List (String × CycleInfo) :=
  let newType := get_shift_type shiftId
  let info := (alookup cycle empId).getD defaultCycle
  if check_if_rested env cycle empId d then
    aset cycle empId ⟨some newType, some d, true⟩
  else
    aset cycle empId ⟨some (info.current_type.getD newType), some d, info.rested⟩

/-- First minimal-score element of the candidate list.  The source sorts the
candidates with Python's stable sort and takes the head, which is exactly
the first element attaining the minimum score. -/
def pickBest : List (ℚ × String) → Option (ℚ × String)
  | [] => none
  | x :: xs => some (xs.foldl (fun b y => if y.1 < b.1 then y else b) x)

/-- Candidate selection inside `assign_employee_to_shift`: employees with no
assignment that day, filtered to those with zero conflicts, scored, minimum
score first (ties by enumeration order). -/
def pickCandidate (env : Env) (d : Nat) (shiftId : String)
    (st : GenState) : Option String :=
  let entry := (alookup st.schedule d).getD defaultEntry
  let available := (env.employees.map (·.1)).filter
    (fun e => (alookup entry.assignments e).isNone)
  let candidates := available.filterMap (fun e =>
    if check_conflicts env e shiftId d st.schedule = [] then
      some (get_employee_score env st.cycle st.workload e shiftId d, e)
    else none)
  (pickBest candidates).map (·.2)

/-- The success branch of `assign_employee_to_shift`: commit the assignment,
bump the workload and update the rotation state. -/
def applyAssign (env : Env) (d : Nat) (shiftId empId : String)
    (st : GenState) : GenState :=
  { schedule := aupdate st.schedule d (commitAssign empId shiftId)
    workload := bumpWorkload env empId shiftId st.workload
    cycle := updateCycleOnAssign env st.cycle empId d shiftId }

/-- `assign_employee_to_shift(date_str, shift_id, schedule, workload)` from
`app.py` (lines 1419–1478): no-op when the shift already meets its dynamic
requirement, otherwise assign the best conflict-free candidate, returning
whether an assignment was made. -/
def assign (env : Env) (d : Nat) (shiftId : String) (st : GenState) :
    GenState × Bool :=
  let required := get_required_staff env shiftId (some d) (some st.schedule)
  let current := countAt st.schedule d shiftId
  if current ≥ required then (st, false)
  else
    match pickCandidate env d shiftId st with
    | none => (st, false)
    | some e => (applyAssign env d shiftId e st, true)

/-- The per-date shift list: on Mondays with the `monday_no_early_early`
rule the designated early-early shift is excluded. -/
def shiftListToday (env : Env) (d : Nat) : List String :=
  if weekdayName (d % 7) = "周一" ∧ env.mondayNoEarlyEarly then
    (env.shifts.map (·.1)).filter (fun s => s ≠ fixedShiftId)
  else env.shifts.map (·.1)

/-- The phase-1 commit for a fixed early-early employee (lines 1502–1515):
assignment, counts, workload, and a rotation record with the early-early
type and `rested = False`. -/
def phase1Commit (env : Env) (d : Nat) (empId : String) (st : GenState) :
    GenState :=
  { schedule := aupdate st.schedule d (commitAssign empId fixedShiftId)
    workload := bumpWorkload env empId fixedShiftId st.workload
    cycle := aset st.cycle empId
      ⟨some (get_shift_type fixedShiftId), some d, false⟩ }

/-- The phase-1 loop over the configured fixed early-early employees:
stop when the shift reaches `required`, skip employees already assigned
that day or with conflicts, commit the rest. -/
def phase1Emps (env : Env) (d : Nat) (required : Nat) :
    List String → GenState → GenState
  | [], st => st
  | e :: rest, st =>
    if countAt st.schedule d fixedShiftId ≥ required then st
    else
      let entry := (alookup st.schedule d).getD defaultEntry
      let st' :=
        if (alookup entry.assignments e).isNone then
          if check_conflicts env e fixedShiftId d st.schedule = [] then
            phase1Commit env d e st
          else st
        else st
      phase1Emps env d required rest st'

/-- Phase 1 (fixed-role pre-assignment) for one date (lines 1481–1515). -/
def phase1Date (env : Env) (st : GenState) (d : Nat) : GenState :=
  if weekdayName (d % 7) = "周一" ∧ env.mondayNoEarlyEarly then st
  else if (env.shifts.map (·.1)).contains fixedShiftId then
    let required := ((alookup env.shifts fixedShiftId).getD ⟨[], 2, 8⟩).required_staff
    phase1Emps env d required env.fixedEmployees st
  else st

/-- The phase-2 `while current_count < required_staff` loop, with fuel
`required - current` (each iteration either succeeds, raising the count by
one, or breaks). -/
def fillShift (env : Env) (d : Nat) (shiftId : String) :
    Nat → GenState → GenState
  | 0, st => st
  | fuel + 1, st =>
    match assign env d shiftId st with
    | (st', true) => fillShift env d shiftId fuel st'
    | (st', false) => st'

/-- Phase 2 (primary fill) for one date (lines 1518–1543): every shift of
the day except the early-early shift is filled up to its dynamic
requirement. -/
def phase2Date (env : Env) (st : GenState) (d : Nat) : GenState :=
  (shiftListToday env d).foldl (fun st shiftId =>
    if shiftId = fixedShiftId then st
    else
      let required := get_required_staff env shiftId (some d) (some st.schedule)
      let current := countAt st.schedule d shiftId
      fillShift env d shiftId (required - current) st) st

/-- One phase-3 attempt on one shift of one date, threading the
`vacancies_filled` counter. -/
def phase3Shift (env : Env) (d : Nat) (acc : GenState × Nat)
    (shiftId : String) : GenState × Nat :=
  let required := get_required_staff env shiftId (some d) (some acc.1.schedule)
  let current := countAt acc.1.schedule d shiftId
  if current < required then
    match assign env d shiftId acc.1 with
    | (st', true) => (st', acc.2 + 1)
    | (st', false) => (st', acc.2)
  else acc

/-- One full phase-3 pass over all dates and shifts, returning the new state
and the number of vacancies filled. -/
def phase3Pass (env : Env) (dates : List Nat) (st : GenState) :
    GenState × Nat :=
  dates.foldl (fun acc d =>
    (shiftListToday env d).foldl (phase3Shift env d) acc) (st, 0)

/-- Phase 3 (vacancy backfill, lines 1546–1574): up to 3 passes, stopping
early after a pass that fills no vacancy. -/
def phase3 (env : Env) (dates : List Nat) : Nat → GenState → GenState
  | 0, st => st
  | fuel + 1, st =>
    let (st', filled) := phase3Pass env dates st
    if filled = 0 then st' else phase3 env dates fuel st'

/-- Stable insertion sort: `x` is inserted after every element strictly
smaller-or-equal under `lt` (Python's `list.sort` is stable). -/
def insertSorted {α : Type} (lt : α → α → Bool) (x : α) : List α → List α
  | [] => [x]
  | y :: ys => if lt y x then y :: insertSorted lt x ys else x :: y :: ys

/-- Stable insertion sort by a strict comparison. -/
def insertionSort {α : Type} (lt : α → α → Bool) : List α → List α
  | [] => []
  | x :: xs => insertSorted lt x (insertionSort lt xs)

/-- Strict ascending order on `(daysWorked, hoursWorked)` used to sort the
idle employees of phase 4. -/
def workLt (workload : List (String × Workload)) (a b : String) : Bool :=
  let wa := (alookup workload a).getD defaultWorkload
  let wb := (alookup workload b).getD defaultWorkload
  wa.days < wb.days || (wa.days == wb.days && wa.hours < wb.hours)

/-- Strict ascending order on the phase-4 shortage key
`(0 if get_shift_type(shift) == preferred else 1, -shortage)`. -/
def shortageLt (preferred : String) (a b : String × Nat) : Bool :=
  let ka : Nat := if get_shift_type a.1 = preferred then 0 else 1
  let kb : Nat := if get_shift_type b.1 = preferred then 0 else 1
  ka < kb || (ka == kb && (-(a.2 : Int)) < (-(b.2 : Int)))

/-- The phase-4 commit (lines 1627–1650): assignment, counts, workload, and
the phase-4 rotation update. -/
def phase4Commit (env : Env) (d : Nat) (empId shiftId : String)
    (st : GenState) : GenState :=
  { schedule := aupdate st.schedule d (commitAssign empId shiftId)
    workload := bumpWorkload env empId shiftId st.workload
    cycle := updateCyclePhase4 env st.cycle empId d shiftId }

/-- The phase-4 inner loop over the (sorted) short shifts: assign the first
conflict-free one and stop. -/
def phase4Try (env : Env) (d : Nat) (empId : String) (st : GenState) :
    List (String × Nat) → GenState
  | [] => st
  | (shiftId, _) :: rest =>
    if check_conflicts env empId shiftId d st.schedule = [] then
      phase4Commit env d empId shiftId st
    else phase4Try env d empId st rest

/-- Phase 4 treatment of one idle employee (lines 1598–1652): collect the
shifts still short, order them by the rotation preference, and try them in
order. -/
def phase4Emp (env : Env) (d : Nat) (st : GenState) (empId : String) :
    GenState :=
  let shortages := (shiftListToday env d).filterMap (fun shiftId =>
    let required := get_required_staff env shiftId (some d) (some st.schedule)
    let current := countAt st.schedule d shiftId
    if current < required then some (shiftId, required - current) else none)
  let currentType := ((alookup st.cycle empId).getD defaultCycle).current_type
  let justRested := check_if_rested env st.cycle empId d
  let ordered :=
    match currentType with
    | some t =>
      if t = "早班" ∨ t = "晚班" then
        if justRested then
          insertionSort (shortageLt (get_opposite_shift_type t)) shortages
        else insertionSort (shortageLt t) shortages
      else shortages
    | none => shortages
  phase4Try env d empId st ordered

/-- Phase 4 (idle-employee backfill) for one date (lines 1577–1652):
employees without an assignment that day, sorted by workload, each given
the first conflict-free short shift. -/
def phase4Date (env : Env) (st : GenState) (d : Nat) : GenState :=
  let entry := (alookup st.schedule d).getD defaultEntry
  let assigned := entry.assignments.map (·.1)
  let unassigned := (env.employees.map (·.1)).filter
    (fun e => ¬ assigned.contains e)
  let sorted := insertionSort (workLt st.workload) unassigned
  sorted.foldl (phase4Emp env d) st

/-- The consecutive dates of the run:
`[start_date + timedelta(days=x) for x in range((end-start).days + 1)]`. -/
def dateRange (startD endD : Nat) : List Nat :=
  (List.range (endD - startD + 1)).map (fun x => startD + x)

/-- The initial schedule: every date with empty assignments and a zero
count for every shift. -/
def initSchedule (env : Env) (startD endD : Nat) : Schedule :=
  (dateRange startD endD).map (fun d =>
    (d, ⟨[], env.shifts.map (fun p => (p.1, 0))⟩))

/-- The initial generation state: empty schedule entries, zero workloads,
and empty rotation records for every employee. -/
def initState (env : Env) (startD endD : Nat) : GenState :=
  { schedule := initSchedule env startD endD
    workload := env.employees.map (fun p => (p.1, ⟨0, 0⟩))
    cycle := env.employees.map (fun p => (p.1, ⟨none, none, false⟩)) }

/-- The four-phase generation pipeline of `generate_schedule` (lines
1249–1652), producing the final schedule.  The phases iterate
`schedule.keys()`, which never change after initialisation and equal
`dateRange startD endD`. -/
def runGenerate (env : Env) (startD endD : Nat) : Schedule :=
  let dates := dateRange startD endD
  let st0 := initState env startD endD
  let st1 := dates.foldl (phase1Date env) st0
  let st2 := dates.foldl (phase2Date env) st1
  let st3 := phase3 env dates 3 st2
  let st4 := dates.foldl (phase4Date env) st3
  st4.schedule

/-- The `generate` entry point with its precondition checks (lines
1191–1241): refuse on an empty employee set, an empty shift set, or a start
date not strictly before the end date; otherwise run the four phases. -/
def generate (env : Env) (startD endD : Nat) : Except String Schedule :=
  if env.employees.isEmpty || env.shifts.isEmpty then
    .error "请先完成员工和班次管理"
  else if startD ≥ endD then
    .error "结束日期必须晚于开始日期"
  else .ok (runGenerate env startD endD)

/-- The caller-side effect on the stored schedule: a precondition failure
returns without touching `st.session_state.schedule`; a successful run
replaces it. -/
def applyGenerate (stored : Schedule) (env : Env) (startD endD : Nat) :
    Schedule :=
  match generate env startD endD with
  | .error _ => stored
  | .ok s => s

/-! ### Spec-side comparison definitions

These definitions transcribe the wording of spec sentences (not the code);
they exist only to be compared against the embedded source functions. -/

/-- The rotation term as the C2 claim sentence reads: `-5` if `justRested`
and the current category is rotating and the shift's category equals the
opposite of the current category; **else** `-3` if the current category is
set and the shift's category equals the current category; else `0`. -/
def claimRotationTerm (isFixed justRested : Bool) (currentType : Option String)
    (newType : String) : ℚ :=
  if isFixed then 0
  else match currentType with
    | some t =>
      if justRested ∧ (t = "早班" ∨ t = "晚班") ∧
          newType = get_opposite_shift_type t then -5
      else if newType = t then -3
      else 0
    | none => 0

/-- The whole score as the C2 claim sentence reads: the sum of the workload,
skill, preference and hours terms and `claimRotationTerm`. -/
def claimScore (env : Env) (cycle : List (String × CycleInfo))
    (workload : List (String × Workload)) (empId shiftId : String)
    (d : Nat) : ℚ :=
  let emp := (alookup env.employees empId).getD defaultEmployee
  let shift := (alookup env.shifts shiftId).getD defaultShift
  let w := (alookup workload empId).getD defaultWorkload
  (10 : ℚ) * w.days
  + (if shift.required_skills ≠ [] then
      (if shift.required_skills.any (fun sk => emp.skills.contains sk) then
        (-10 : ℚ) else 50) else 0)
  + (if emp.preferred_shifts.contains shiftId then (-5 : ℚ) else 0)
  + (0.1 : ℚ) * w.hours
  + claimRotationTerm (env.fixedEmployees.contains empId)
      (check_if_rested env cycle empId d)
      (((alookup cycle empId).getD defaultCycle).current_type)
      (get_shift_type shiftId)

/-- The rotation term as the code computes it, which is the amended C2
rotation term: the `-3` branch additionally requires that it is **not** the
case that `justRested` holds with a rotating current category. -/
def amendedRotationTerm (isFixed justRested : Bool) (currentType : Option String)
    (newType : String) : ℚ :=
  if isFixed then 0
  else match currentType with
    | some t =>
      if justRested ∧ (t = "早班" ∨ t = "晚班") then
        (if newType = get_opposite_shift_type t then (-5 : ℚ) else 0)
      else (if newType = t then (-3 : ℚ) else 0)
    | none => 0

/-- The `(currentCategory, lastWorkedDate)` outcome of a successful
assignment as the C3 claim sentence reads: the category is replaced by the
shift's category only when `justRested` holds **and** the current category
is rotating (set and not Other); otherwise it is initialised only when
unset, and the last-worked date always becomes the assignment date. -/
def claimCycleUpdate (justRested : Bool) (currentType : Option String)
    (newType : String) (d : Nat) : Option String × Option Nat :=
  if justRested ∧ currentType ≠ none ∧ currentType ≠ some "其他" then
    (some newType, some d)
  else
    (match currentType with
      | none => some newType
      | some t => some t, some d)

/-! ### Concrete example inputs for counterexamples and witnesses

Day numbers count from a reference Monday, so day 0, 7, … are Mondays. -/

/-- Employee resting on Mondays, no skills, no preferences. -/
def empB : Employee := ⟨"张三", [], "周一", [], []⟩

/-- Shift whose id classifies as 早班, no skill requirement, 1 person. -/
def shB : Shift := ⟨[], 1, 8⟩

/-- Example environment for the scoring claims. -/
def envB : Env := ⟨[("e1", empB)], [("早班A", shB)], [], false⟩

/-- Rotation state: e1 currently in 早班, last worked day 1 (a Tuesday). -/
def cycB : List (String × CycleInfo) := [("e1", ⟨some "早班", some 1, false⟩)]

/-- Workloads: e1 fresh. -/
def wlB : List (String × Workload) := [("e1", ⟨0, 0⟩)]

/-- Workload record of e1 in `wlB`. -/
def wB : Workload := ⟨0, 0⟩

/-- Environment for the C3 counterexample: one Monday-resting employee and
one 晚班-classified shift. -/
def envC3 : Env := ⟨[("e1", empB)], [("晚班X", shB)], [], false⟩

/-- State for the C3 counterexample: day 8 (Tuesday) initialised and empty;
e1's rotation category is 其他 with last work on day 6 (Sunday), so the
Monday day 7 lies strictly between. -/
def stC3 : GenState :=
  { schedule := [(8, ⟨[], [("晚班X", 0)]⟩)]
    workload := [("e1", ⟨0, 0⟩)]
    cycle := [("e1", ⟨some "其他", some 6, false⟩)] }

/-- Employee for the C5 counterexample: no rest day, day 5 unavailable. -/
def empC5 : Employee := ⟨"李四", [], "", [], [5]⟩

/-- Environment for the C5 counterexample: the employee exists but no shift
does. -/
def envC5 : Env := ⟨[("e1", empC5)], [], [], false⟩

/-- A second environment with two employees and two shifts, used for
witnesses of the engine-level claims. -/
def envW : Env :=
  ⟨[("e1", empB), ("e2", ⟨"李四", ["bar"], "", [], []⟩)],
   [("早班A", shB), ("晚班B", shB)], [], false⟩

/-- A one-day schedule whose early-early trigger shift has count 0. -/
def schedW : Schedule := [(3, ⟨[], [(fixedShiftId, 0)]⟩)]

/-- Environment whose shift set contains the dependent early shift (base
staff 3) and the trigger early-early shift. -/
def envDyn : Env :=
  ⟨[("e1", empB)], [(earlyShiftId, ⟨[], 3, 8⟩), (fixedShiftId, shB)], [], false⟩

/-- An environment violating the generation precondition (no employees). -/
def envEmpty : Env := ⟨[], [], [], false⟩

/-! ### Invariant predicates -/

/-- Number of assignments of a day entry that map to a given shift. -/
def assignedCount (entry : DayEntry) (shiftId : String) : Nat :=
  (entry.assignments.filter (fun a => a.2 = shiftId)).length

/-- Count consistency of one day entry: for every shift id, the recorded
count equals the number of assignments mapping to it. -/
def EntryConsistent (entry : DayEntry) : Prop :=
  ∀ s : String, (alookup entry.shift_counts s).getD 0 = assignedCount entry s

/-- Count consistency of a whole schedule (claim C7). -/
def Consistent (sched : Schedule) : Prop :=
  ∀ p ∈ sched, EntryConsistent p.2

/-- Rest/unavailability safety of one day entry: no assigned employee has
this date on their fixed rest weekday or in their unavailable set. -/
def EntryRestOK (env : Env) (d : Nat) (entry : DayEntry) : Prop :=
  ∀ a ∈ entry.assignments, ∀ emp, alookup env.employees a.1 = some emp →
    weekdayName (d % 7) ≠ emp.rest_day ∧ d ∉ emp.unavailable_days

/-- Rest/unavailability safety of a whole schedule (claim C8). -/
def RestOK (env : Env) (sched : Schedule) : Prop :=
  ∀ p ∈ sched, EntryRestOK env p.1 p.2

/-- The joint invariant preserved by every assignment site of the engine. -/
def GoodSched (env : Env) (sched : Schedule) : Prop :=
  Consistent sched ∧ RestOK env sched

/-! ### Association-list lemmas -/

theorem alookup_aset_self {κ β : Type} [DecidableEq κ] (m : List (κ × β))
    (k : κ) (v : β) : alookup (aset m k v) k = some v := by
  induction m with
  | nil => simp [aset, alookup]
  | cons p ps ih =>
    by_cases h : p.1 = k
    · simp [aset, h, alookup]
    · simp [aset, h, alookup, ih]

theorem alookup_aset_ne {κ β : Type} [DecidableEq κ] (m : List (κ × β))
    (k k' : κ) (v : β) (h : k' ≠ k) :
    alookup (aset m k v) k' = alookup m k' := by
  have hk : ¬ k = k' := fun h' => h h'.symm
  induction m with
  | nil => simp [aset, alookup, hk]
  | cons p ps ih =>
    by_cases hp : p.1 = k
    · subst hp
      simp [aset, alookup, hk]
    · simp only [aset, if_neg hp, alookup]
      by_cases hp' : p.1 = k'
      · simp [hp']
      · simp [hp', ih]

theorem aset_eq_append {κ β : Type} [DecidableEq κ] (m : List (κ × β))
    (k : κ) (v : β) (h : alookup m k = none) :
    aset m k v = m ++ [(k, v)] := by
  induction m with
  | nil => simp [aset]
  | cons p ps ih =>
    by_cases hp : p.1 = k
    · simp [alookup, hp] at h
    · simp only [alookup, if_neg hp] at h
      simp [aset, hp, ih h]

theorem alookup_eq_none_iff {κ β : Type} [DecidableEq κ] (m : List (κ × β))
    (k : κ) : alookup m k = none ↔ ∀ p ∈ m, p.1 ≠ k := by
  induction m with
  | nil => simp [alookup]
  | cons p ps ih =>
    by_cases hp : p.1 = k
    · simp [alookup, hp]
    · simp [alookup, hp, ih]

theorem alookup_mem {κ β : Type} [DecidableEq κ] (m : List (κ × β))
    (k : κ) (v : β) (h : alookup m k = some v) : (k, v) ∈ m := by
  induction m with
  | nil => simp [alookup] at h
  | cons p ps ih =>
    by_cases hp : p.1 = k
    · simp only [alookup, if_pos hp] at h
      have hpv : p = (k, v) := by
        cases p
        simp only at hp
        simp only [Option.some_inj] at h
        rw [hp, h]
      exact hpv ▸ List.mem_cons_self _ _
    · simp only [alookup, if_neg hp] at h
      exact List.mem_cons_of_mem _ (ih h)

theorem aupdate_forall {κ β : Type} [DecidableEq κ] (P : κ × β → Prop)
    (m : List (κ × β)) (k : κ) (f : β → β)
    (h : ∀ p ∈ m, P p) (hf : ∀ v, alookup m k = some v → P (k, f v)) :
    ∀ p ∈ aupdate m k f, P p := by
  induction m with
  | nil => simp [aupdate]
  | cons q qs ih =>
    by_cases hq : q.1 = k
    · simp only [aupdate, if_pos hq]
      intro p hp
      rcases List.mem_cons.mp hp with hp | hp
      · subst hp
        rw [hq]
        exact hf q.2 (by simp [alookup, hq])
      · exact h p (List.mem_cons_of_mem _ hp)
    · simp only [aupdate, if_neg hq]
      intro p hp
      rcases List.mem_cons.mp hp with hp | hp
      · exact h p (hp ▸ List.mem_cons_self _ _)
      · exact ih (fun p hp => h p (List.mem_cons_of_mem _ hp))
          (fun v hv => hf v (by simpa [alookup, hq] using hv)) p hp

/-! ### Generic fold/loop preservation -/

theorem foldl_preserve {α σ : Type} (P : σ → Prop) (f : σ → α → σ)
    (h : ∀ s a, P s → P (f s a)) :
    ∀ (l : List α) (s : σ), P s → P (l.foldl f s) := by
  intro l
  induction l with
  | nil => intro s hs; exact hs
  | cons a l ih => intro s hs; exact ih (f s a) (h s a hs)

/-! ### Facts about the conflict checker and candidate selection -/

theorem weekdayName_ne_empty (n : Nat) : weekdayName n ≠ "" := by
  unfold weekdayName
  split_ifs <;> decide

theorem check_conflicts_nil_elim (env : Env) (e sid : String) (d : Nat)
    (sched : Schedule) (h : check_conflicts env e sid d sched = []) :
    (∃ emp, alookup env.employees e = some emp ∧
      weekdayName (d % 7) ≠ emp.rest_day ∧ d ∉ emp.unavailable_days)
    ∧ (∀ entry, alookup sched d = some entry →
        alookup entry.assignments e = none) := by
  unfold check_conflicts at h
  cases he : alookup env.employees e with
  | none => rw [he] at h; simp at h
  | some emp =>
    rw [he] at h
    cases hs : alookup env.shifts sid with
    | none => rw [hs] at h; simp at h
    | some sh =>
      rw [hs] at h
      rw [List.append_eq_nil, List.append_eq_nil, List.append_eq_nil] at h
      obtain ⟨⟨⟨h1, h2⟩, _⟩, h4⟩ := h
      constructor
      · refine ⟨emp, rfl, ?_, ?_⟩
        · by_cases hr : emp.rest_day = ""
          · exact hr ▸ weekdayName_ne_empty (d % 7)
          · intro hwk
            rw [if_pos ⟨hr, hwk⟩] at h1
            exact List.cons_ne_nil _ _ h1
        · intro hmem
          rw [if_pos ⟨List.ne_nil_of_mem hmem, hmem⟩] at h2
          exact List.cons_ne_nil _ _ h2
      · intro entry hent
        rw [hent] at h4
        by_cases hiso : (alookup entry.assignments e).isSome
        · simp [hiso] at h4
        · exact Option.not_isSome_iff_eq_none.mp hiso

theorem pickBest_mem (l : List (ℚ × String)) (x : ℚ × String)
    (h : pickBest l = some x) : x ∈ l := by
  have key : ∀ (l : List (ℚ × String)) (b : ℚ × String),
      (l.foldl (fun b y => if y.1 < b.1 then y else b) b) ∈ b :: l := by
    intro l
    induction l with
    | nil => intro b; exact List.mem_cons_self _ _
    | cons y ys ih =>
      intro b
      simp only [List.foldl_cons]
      rcases List.mem_cons.mp (ih (if y.1 < b.1 then y else b)) with hm | hm
      · rw [hm]
        by_cases hy : y.1 < b.1
        · simp [hy]
        · simp [hy]
      · exact List.mem_cons_of_mem _ (List.mem_cons_of_mem _ hm)
  cases l with
  | nil => simp [pickBest] at h
  | cons a as =>
    simp only [pickBest, Option.some_inj] at h
    exact h ▸ key as a

theorem pickCandidate_conflicts (env : Env) (d : Nat) (sid : String)
    (st : GenState) (e : String) (h : pickCandidate env d sid st = some e) :
    check_conflicts env e sid d st.schedule = [] := by
  unfold pickCandidate at h
  rw [Option.map_eq_some'] at h
  obtain ⟨x, hx, hxe⟩ := h
  have hmem := pickBest_mem _ _ hx
  rw [List.mem_filterMap] at hmem
  obtain ⟨a, _, ha⟩ := hmem
  by_cases hc : check_conflicts env a sid d st.schedule = []
  · rw [if_pos hc] at ha
    have : a = x.2 := by
      cases ha
      rfl
    rw [← hxe, ← this]
    exact hc
  · rw [if_neg hc] at ha
    exact absurd ha (by simp)

/-! ### Preservation of the schedule invariants -/

theorem entryConsistent_commit (entry : DayEntry) (e sid : String)
    (hnone : alookup entry.assignments e = none)
    (h : EntryConsistent entry) :
    EntryConsistent (commitAssign e sid entry) := by
  intro s
  unfold commitAssign assignedCount
  simp only
  rw [aset_eq_append _ _ _ hnone, List.filter_append]
  by_cases hs : s = sid
  · subst hs
    rw [alookup_aset_self]
    simp only [Option.getD_some, List.length_append]
    have : (List.filter (fun a => decide (a.2 = s)) [(e, s)]).length = 1 := by
      simp
    rw [this, h s]
    rfl
  · have hns : sid ≠ s := fun h' => hs h'.symm
    rw [alookup_aset_ne _ _ _ _ hs]
    have : (List.filter (fun a => decide (a.2 = s)) [(e, sid)]).length = 0 := by
      simp [hns]
    rw [List.length_append, this, h s]
    rfl

theorem entryRestOK_commit (env : Env) (d : Nat) (entry : DayEntry)
    (e sid : String) (emp : Employee)
    (hnone : alookup entry.assignments e = none)
    (hemp : alookup env.employees e = some emp)
    (hwk : weekdayName (d % 7) ≠ emp.rest_day)
    (hun : d ∉ emp.unavailable_days)
    (h : EntryRestOK env d entry) :
    EntryRestOK env d (commitAssign e sid entry) := by
  intro a ha emp' hemp'
  unfold commitAssign at ha
  simp only at ha
  rw [aset_eq_append _ _ _ hnone, List.mem_append] at ha
  rcases ha with ha | ha
  · exact h a ha emp' hemp'
  · simp only [List.mem_singleton] at ha
    subst ha
    rw [hemp] at hemp'
    cases hemp'
    exact ⟨hwk, hun⟩

theorem goodSched_commit (env : Env) (sched : Schedule) (d : Nat)
    (e sid : String) (h : GoodSched env sched)
    (hc : check_conflicts env e sid d sched = []) :
    GoodSched env (aupdate sched d (commitAssign e sid)) := by
  obtain ⟨⟨emp, hemp, hwk, hun⟩, hno⟩ := check_conflicts_nil_elim env e sid d sched hc
  constructor
  · exact aupdate_forall (fun p => EntryConsistent p.2) sched d _
      (fun p hp => h.1 p hp)
      (fun v hv => entryConsistent_commit v e sid (hno v hv)
        (h.1 (d, v) (alookup_mem _ _ _ hv)))
  · exact aupdate_forall (fun p => EntryRestOK env p.1 p.2) sched d _
      (fun p hp => h.2 p hp)
      (fun v hv => entryRestOK_commit env d v e sid emp (hno v hv) hemp hwk hun
        (h.2 (d, v) (alookup_mem _ _ _ hv)))

theorem assign_preserves (env : Env) (d : Nat) (sid : String) (st : GenState)
    (h : GoodSched env st.schedule) :
    GoodSched env ((assign env d sid st).1).schedule := by
  simp only [assign]
  split
  · exact h
  · rcases hpc : pickCandidate env d sid st with _ | e
    · simp only [hpc]
      exact h
    · simp only [hpc]
      have hc := pickCandidate_conflicts env d sid st e hpc
      simp only [applyAssign]
      exact goodSched_commit env st.schedule d e sid h hc

theorem phase1Emps_preserves (env : Env) (d : Nat) (required : Nat)
    (l : List String) (st : GenState) (h : GoodSched env st.schedule) :
    GoodSched env ((phase1Emps env d required l st).schedule) := by
  induction l generalizing st with
  | nil => exact h
  | cons e rest ih =>
    simp only [phase1Emps]
    split
    · exact h
    · apply ih
      split
      · split
        · next hc =>
          simp only [phase1Commit]
          exact goodSched_commit env st.schedule d e fixedShiftId h hc
        · exact h
      · exact h

theorem phase1Date_preserves (env : Env) (st : GenState) (d : Nat)
    (h : GoodSched env st.schedule) :
    GoodSched env ((phase1Date env st d).schedule) := by
  simp only [phase1Date]
  split
  · exact h
  · split
    · exact phase1Emps_preserves env d _ _ st h
    · exact h

theorem fillShift_preserves (env : Env) (d : Nat) (sid : String)
    (fuel : Nat) (st : GenState) (h : GoodSched env st.schedule) :
    GoodSched env ((fillShift env d sid fuel st).schedule) := by
  induction fuel generalizing st with
  | zero => exact h
  | succ n ih =>
    simp only [fillShift]
    rcases hstep : assign env d sid st with ⟨st', b⟩
    have hst' : GoodSched env st'.schedule := by
      have := assign_preserves env d sid st h
      rw [hstep] at this
      exact this
    cases b
    · exact hst'
    · exact ih st' hst'

theorem phase2Date_preserves (env : Env) (st : GenState) (d : Nat)
    (h : GoodSched env st.schedule) :
    GoodSched env ((phase2Date env st d).schedule) := by
  simp only [phase2Date]
  refine foldl_preserve (fun st => GoodSched env st.schedule) _ ?_ _ st h
  intro st' sid h'
  split
  · exact h'
  · exact fillShift_preserves env d sid _ st' h'

theorem phase3Shift_preserves (env : Env) (d : Nat) (acc : GenState × Nat)
    (sid : String) (h : GoodSched env acc.1.schedule) :
    GoodSched env ((phase3Shift env d acc sid).1.schedule) := by
  simp only [phase3Shift]
  split
  · rcases hstep : assign env d sid acc.1 with ⟨st', b⟩
    have hst' : GoodSched env st'.schedule := by
      have := assign_preserves env d sid acc.1 h
      rw [hstep] at this
      exact this
    cases b
    · exact hst'
    · exact hst'
  · exact h

theorem phase3Pass_preserves (env : Env) (dates : List Nat) (st : GenState)
    (h : GoodSched env st.schedule) :
    GoodSched env ((phase3Pass env dates st).1.schedule) := by
  simp only [phase3Pass]
  refine foldl_preserve (fun acc : GenState × Nat => GoodSched env acc.1.schedule)
    _ ?_ _ (st, 0) h
  intro acc d hacc
  exact foldl_preserve (fun acc : GenState × Nat => GoodSched env acc.1.schedule)
    _ (fun acc' sid h' => phase3Shift_preserves env d acc' sid h') _ acc hacc

theorem phase3_preserves (env : Env) (dates : List Nat) (fuel : Nat)
    (st : GenState) (h : GoodSched env st.schedule) :
    GoodSched env ((phase3 env dates fuel st).schedule) := by
  induction fuel generalizing st with
  | zero => exact h
  | succ n ih =>
    simp only [phase3]
    rcases hpass : phase3Pass env dates st with ⟨st', filled⟩
    have hst' : GoodSched env st'.schedule := by
      have := phase3Pass_preserves env dates st h
      rw [hpass] at this
      exact this
    split
    · exact hst'
    · exact ih st' hst'

theorem phase4Try_preserves (env : Env) (d : Nat) (e : String) (st : GenState)
    (l : List (String × Nat)) (h : GoodSched env st.schedule) :
    GoodSched env ((phase4Try env d e st l).schedule) := by
  induction l with
  | nil => exact h
  | cons p rest ih =>
    rcases p with ⟨sid, n⟩
    simp only [phase4Try]
    split
    · next hc =>
      simp only [phase4Commit]
      exact goodSched_commit env st.schedule d e sid h hc
    · exact ih

theorem phase4Emp_preserves (env : Env) (d : Nat) (st : GenState) (e : String)
    (h : GoodSched env st.schedule) :
    GoodSched env ((phase4Emp env d st e).schedule) := by
  simp only [phase4Emp]
  exact phase4Try_preserves env d e st _ h

theorem phase4Date_preserves (env : Env) (st : GenState) (d : Nat)
    (h : GoodSched env st.schedule) :
    GoodSched env ((phase4Date env st d).schedule) := by
  simp only [phase4Date]
  exact foldl_preserve (fun st => GoodSched env st.schedule) _
    (fun st' e h' => phase4Emp_preserves env d st' e h') _ st h

theorem alookup_zeros (l : List (String × Shift)) (s : String) :
    (alookup (l.map (fun p => (p.1, (0 : Nat)))) s).getD 0 = 0 := by
  induction l with
  | nil => rfl
  | cons p ps ih =>
    by_cases hp : p.1 = s
    · simp [alookup, hp]
    · simp only [List.map_cons, alookup, hp, if_false]
      exact ih

theorem goodSched_init (env : Env) (startD endD : Nat) :
    GoodSched env (initSchedule env startD endD) := by
  constructor
  · intro p hp
    unfold initSchedule at hp
    rw [List.mem_map] at hp
    obtain ⟨d, _, rfl⟩ := hp
    intro s
    simp only [assignedCount, List.filter_nil, List.length_nil]
    exact alookup_zeros env.shifts s
  · intro p hp
    unfold initSchedule at hp
    rw [List.mem_map] at hp
    obtain ⟨d, _, rfl⟩ := hp
    intro a ha
    simp at ha

theorem runGenerate_goodSched (env : Env) (startD endD : Nat) :
    GoodSched env (runGenerate env startD endD) := by
  simp only [runGenerate]
  have h0 : GoodSched env (initState env startD endD).schedule :=
    goodSched_init env startD endD
  have h1 := foldl_preserve (fun st => GoodSched env st.schedule)
    (phase1Date env) (fun st d h => phase1Date_preserves env st d h)
    (dateRange startD endD) _ h0
  have h2 := foldl_preserve (fun st => GoodSched env st.schedule)
    (phase2Date env) (fun st d h => phase2Date_preserves env st d h)
    (dateRange startD endD) _ h1
  have h3 := phase3_preserves env (dateRange startD endD) 3 _ h2
  exact foldl_preserve (fun st => GoodSched env st.schedule)
    (phase4Date env) (fun st d h => phase4Date_preserves env st d h)
    (dateRange startD endD) _ h3

/-! ### Claim theorems -/

/-- Claim C1: for every shift id (with a configured shift record), date and
non-empty partial schedule, the dynamic staffing resolver returns the
shift's base required staff by default; for the designated dependent shift
it returns 2 when the trigger shift's count for that date is 0 and 1 when
that count is at least 1. -/
theorem required_staff_resolution (env : Env) (shiftId : String) (sh : Shift)
    (d : Nat) (sched : Schedule)
    (hsh : alookup env.shifts shiftId = some sh) (hne : sched ≠ []) :
    get_required_staff env shiftId (some d) (some sched) =
      if shiftId = earlyShiftId then
        (if triggerCount sched d = 0 then 2 else 1)
      else sh.required_staff := by
  unfold get_required_staff
  by_cases h : shiftId = earlyShiftId
  · subst h
    have htr : schedTruthy (some sched) = true := by
      rcases sched with _ | ⟨p, rest⟩
      · exact absurd rfl hne
      · rfl
    simp [htr, triggerCount]
  · have hne' : ¬ (earlyShiftId = shiftId) := fun hh => h hh.symm
    have hb : (shiftId == earlyShiftId) = false := by
      simp [h]
    simp [hb, flexibleShifts, alookup, hne', hsh, h]

/-- Witness for C1: in a concrete environment the dependent shift resolves
to 2 on a date whose trigger count is 0, per `required_staff_resolution`. -/
theorem required_staff_resolution_witness :
    alookup envDyn.shifts earlyShiftId = some ⟨[], 3, 8⟩ ∧ schedW ≠ [] ∧
    get_required_staff envDyn earlyShiftId (some 3) (some schedW) =
      (if earlyShiftId = earlyShiftId then
        (if triggerCount schedW 3 = 0 then 2 else 1)
      else (Shift.mk [] 3 8).required_staff) :=
  ⟨rfl, by decide,
   required_staff_resolution envDyn earlyShiftId ⟨[], 3, 8⟩ 3 schedW rfl (by decide)⟩

/-- Claim C4: `check_if_rested` returns true iff the employee's last-worked
date is set, the employee has a fixed rest weekday, and some calendar day
strictly after the last-worked date and up to the query date falls on that
weekday; false in every other case. -/
theorem just_rested_iff (env : Env) (cycle : List (String × CycleInfo))
    (empId : String) (d : Nat) :
    check_if_rested env cycle empId d = true ↔
      (∃ lw, ((alookup cycle empId).getD defaultCycle).last_work_date = some lw ∧
        ((alookup env.employees empId).getD defaultEmployee).rest_day ≠ "" ∧
        ∃ x, lw < x ∧ x ≤ d ∧ weekdayName (x % 7) =
          ((alookup env.employees empId).getD defaultEmployee).rest_day) := by
  unfold check_if_rested
  cases hlw : ((alookup cycle empId).getD defaultCycle).last_work_date with
  | none => simp
  | some lw =>
    simp only [Option.some.injEq]
    by_cases hre : ((alookup env.employees empId).getD defaultEmployee).rest_day = ""
    · simp [hre]
    · rw [if_neg hre]
      unfold anyRestDayBetween
      rw [List.any_eq_true]
      constructor
      · rintro ⟨x, hx, hpx⟩
        rw [List.mem_map] at hx
        obtain ⟨i, hi, rfl⟩ := hx
        rw [List.mem_range] at hi
        rw [beq_iff_eq] at hpx
        exact ⟨lw, rfl, hre, lw + 1 + i, by omega, by omega, hpx⟩
      · rintro ⟨lw', hlw', _, x, h1, h2, h3⟩
        subst hlw'
        refine ⟨x, ?_, ?_⟩
        · rw [List.mem_map]
          exact ⟨x - (lw + 1), by rw [List.mem_range]; omega, by omega⟩
        · rw [beq_iff_eq]
          exact h3

/-- Claim C6: generation fails with a precondition error exactly when the
employee set is empty, the shift set is empty, or the start date is not
strictly before the end date; on failure the stored schedule is unchanged,
and generation runs exactly when the precondition holds. -/
theorem generate_precondition (env : Env) (startD endD : Nat) :
    ((∃ msg, generate env startD endD = .error msg) ↔
      (env.employees = [] ∨ env.shifts = [] ∨ ¬ startD < endD))
    ∧ (∀ stored : Schedule,
        (env.employees = [] ∨ env.shifts = [] ∨ ¬ startD < endD) →
        applyGenerate stored env startD endD = stored)
    ∧ (env.employees ≠ [] → env.shifts ≠ [] → startD < endD →
        generate env startD endD = .ok (runGenerate env startD endD)) := by
  by_cases h1 : env.employees.isEmpty || env.shifts.isEmpty
  · have hcase : env.employees = [] ∨ env.shifts = [] := by
      rcases Bool.or_eq_true_iff.mp h1 with h | h
      · exact Or.inl (List.isEmpty_iff.mp h)
      · exact Or.inr (List.isEmpty_iff.mp h)
    have hg : generate env startD endD = .error "请先完成员工和班次管理" := by
      simp [generate, h1]
    refine ⟨?_, ?_, ?_⟩
    · exact ⟨fun _ => Or.elim hcase (fun h => Or.inl h) (fun h => Or.inr (Or.inl h)),
        fun _ => ⟨_, hg⟩⟩
    · intro stored _
      simp [applyGenerate, hg]
    · intro hne1 hne2 _
      rcases hcase with h | h
      · exact absurd h hne1
      · exact absurd h hne2
  · by_cases h2 : startD ≥ endD
    · have hg : generate env startD endD = .error "结束日期必须晚于开始日期" := by
        simp [generate, h1, h2]
      refine ⟨?_, ?_, ?_⟩
      · exact ⟨fun _ => Or.inr (Or.inr (by omega)), fun _ => ⟨_, hg⟩⟩
      · intro stored _
        simp [applyGenerate, hg]
      · intro _ _ hlt
        omega
    · have hg : generate env startD endD = .ok (runGenerate env startD endD) := by
        simp [generate, h1, h2]
      have hne : ¬ (env.employees = [] ∨ env.shifts = [] ∨ ¬ startD < endD) := by
        push_neg
        refine ⟨?_, ?_, by omega⟩
        · intro h
          rw [h] at h1
          simp at h1
        · intro h
          rw [h] at h1
          simp at h1
      refine ⟨?_, ?_, ?_⟩
      · constructor
        · rintro ⟨msg, hmsg⟩
          rw [hg] at hmsg
          cases hmsg
        · intro h
          exact absurd h hne
      · intro stored h
        exact absurd h hne
      · intro _ _ _
        exact hg

/-- Witness for C6: with no employees the stored schedule survives the
failed call; with a valid input generation returns a schedule. -/
theorem generate_precondition_witness :
    applyGenerate schedW envEmpty 0 1 = schedW ∧
    generate envW 0 1 = .ok (runGenerate envW 0 1) :=
  ⟨(generate_precondition envEmpty 0 1).2.1 schedW (Or.inl rfl),
   (generate_precondition envW 0 1).2.2 (by decide) (by decide) (by decide)⟩

/-- Claim C7: in every schedule produced by the engine, the recorded count
of every shift on every date equals the number of assignments mapping to
it, and the commit operation shared by all assignment sites increments the
assigned shift's count by exactly one. -/
theorem shift_counts_consistent (env : Env) (startD endD : Nat) :
    Consistent (runGenerate env startD endD) ∧
    ∀ (entry : DayEntry) (empId shiftId : String),
      (alookup (commitAssign empId shiftId entry).shift_counts shiftId).getD 0 =
        (alookup entry.shift_counts shiftId).getD 0 + 1 :=
  ⟨(runGenerate_goodSched env startD endD).1,
   fun entry empId shiftId => by
     simp only [commitAssign]
     rw [alookup_aset_self]
     rfl⟩

/-- Claim C8: in every schedule produced by the engine, no employee is
assigned on a date falling on their fixed rest weekday or in their
unavailable-date set. -/
theorem rest_days_respected (env : Env) (startD endD : Nat) :
    RestOK env (runGenerate env startD endD) :=
  (runGenerate_goodSched env startD endD).2

/-- Claim C9: generation is a pure function of the frozen inputs — two runs
with identical employees, shifts, rules and date range produce identical
schedules, with no dependence on randomness or wall-clock time. -/
theorem generation_deterministic (env₁ env₂ : Env) (s₁ e₁ s₂ e₂ : Nat)
    (henv : env₁ = env₂) (hs : s₁ = s₂) (he : e₁ = e₂) :
    runGenerate env₁ s₁ e₁ = runGenerate env₂ s₂ e₂ := by
  rw [henv, hs, he]

/-- Witness for C9: two identical concrete runs coincide. -/
theorem generation_deterministic_witness :
    runGenerate envW 0 1 = runGenerate envW 0 1 :=
  generation_deterministic envW envW 0 1 0 1 rfl rfl rfl

/-- Claim C10: shift-category inference applies the substring tests in the
fixed priority order early-early, early, late, mid, other; in particular an
id containing both the early-early and late markers classifies early-early,
and one containing the early and late markers but not early-early
classifies early. -/
theorem shift_type_priority (sid : String) :
    (strContains "早早" sid = true → get_shift_type sid = "早早班")
    ∧ (strContains "早" sid = true → strContains "早早" sid = false →
        get_shift_type sid = "早班")
    ∧ (strContains "早早" sid = false → strContains "早" sid = false →
        strContains "晚" sid = true → get_shift_type sid = "晚班")
    ∧ (strContains "早早" sid = false → strContains "早" sid = false →
        strContains "晚" sid = false → strContains "中" sid = true →
        get_shift_type sid = "中班")
    ∧ (strContains "早早" sid = false → strContains "早" sid = false →
        strContains "晚" sid = false → strContains "中" sid = false →
        get_shift_type sid = "其他")
    ∧ (strContains "早早" sid = true → strContains "晚" sid = true →
        get_shift_type sid = "早早班")
    ∧ (strContains "早" sid = true → strContains "早早" sid = false →
        strContains "晚" sid = true → get_shift_type sid = "早班") := by
  unfold get_shift_type
  refine ⟨?_, ?_, ?_, ?_, ?_, ?_, ?_⟩ <;> intros <;> simp_all

/-- Witness for C10: the priority conjuncts at ids carrying the early-early
or early marker without the late marker (including the engine's designated
early-early shift id), and the two both-marker corollaries. -/
theorem shift_type_priority_witness :
    get_shift_type "二期水吧-早早班" = "早早班" ∧
    get_shift_type "早班A" = "早班" ∧
    get_shift_type "早早晚" = "早早班" ∧
    get_shift_type "早晚" = "早班" :=
  ⟨(shift_type_priority "二期水吧-早早班").1 (by decide),
   (shift_type_priority "早班A").2.1 (by decide) (by decide),
   (shift_type_priority "早早晚").2.2.2.2.2.1 (by decide) (by decide),
   (shift_type_priority "早晚").2.2.2.2.2.2 (by decide) (by decide) (by decide)⟩

/-- Counterexample for C2: when the employee just rested, the current
category is rotating (早班) and the offered shift has that same category,
the code's rotation term is 0 while the claim's if/else-if chain yields
−3, so the scores differ at this concrete input. -/
theorem score_rotation_counterexample :
    get_employee_score envB cycB wlB "e1" "早班A" 7 = 0 ∧
    claimScore envB cycB wlB "e1" "早班A" 7 = -3 ∧
    get_employee_score envB cycB wlB "e1" "早班A" 7 ≠
      claimScore envB cycB wlB "e1" "早班A" 7 := by
  have hjr : check_if_rested envB cycB "e1" 7 = true := by decide
  have hty : get_shift_type "早班A" = "早班" := by decide
  have hop : get_opposite_shift_type "早班" = "晚班" := by decide
  have hle : alookup envB.employees "e1" = some empB := rfl
  have hls : alookup envB.shifts "早班A" = some shB := rfl
  have hlw : alookup wlB "e1" = some wB := rfl
  have hlc : alookup cycB "e1" = some ⟨some "早班", some 1, false⟩ := rfl
  have hfx : envB.fixedEmployees.contains "e1" = false := rfl
  have hpf : empB.preferred_shifts.contains "早班A" = false := rfl
  have hfm : "e1" ∉ envB.fixedEmployees := by decide
  have hne : ("早班" : String) ≠ "晚班" := by decide
  have h1 : get_employee_score envB cycB wlB "e1" "早班A" 7 = 0 := by
    norm_num [get_employee_score, hle, hls, hlw, hlc, hjr, hty, hop,
      empB, shB, wB, hfx, hpf, hfm, hne]
  have h2 : claimScore envB cycB wlB "e1" "早班A" 7 = -3 := by
    norm_num [claimScore, claimRotationTerm, hle, hls, hlw, hlc, hjr, hty,
      hop, empB, shB, wB, hfx, hpf, hfm, hne]
  refine ⟨h1, h2, ?_⟩
  rw [h1, h2]
  norm_num

/-- Claim C2 (amended): the score is the stated sum of the workload, skill,
preference and hours terms and a rotation term in which the −3 branch
applies only when it is not the case that the employee just rested with a
rotating current category. -/
theorem score_additive_characterisation (env : Env)
    (cycle : List (String × CycleInfo)) (workload : List (String × Workload))
    (empId shiftId : String) (d : Nat) (emp : Employee) (sh : Shift)
    (w : Workload) (he : alookup env.employees empId = some emp)
    (hs : alookup env.shifts shiftId = some sh)
    (hw : alookup workload empId = some w) :
    get_employee_score env cycle workload empId shiftId d =
      (10 : ℚ) * w.days
      + (if sh.required_skills ≠ [] then
          (if sh.required_skills.any (fun sk => emp.skills.contains sk) then
            (-10 : ℚ) else 50) else 0)
      + (if emp.preferred_shifts.contains shiftId then (-5 : ℚ) else 0)
      + (0.1 : ℚ) * w.hours
      + amendedRotationTerm (env.fixedEmployees.contains empId)
          (check_if_rested env cycle empId d)
          (((alookup cycle empId).getD defaultCycle).current_type)
          (get_shift_type shiftId) := by
  simp only [get_employee_score, amendedRotationTerm]
  rw [he, hs, hw]
  simp only [Option.getD_some]
  by_cases hf : env.fixedEmployees.contains empId
  · rw [if_pos hf, if_pos hf]
    ring
  · rw [if_neg hf, if_neg hf]
    rcases hct : ((alookup cycle empId).getD defaultCycle).current_type with _ | t
    · simp only
      ring
    · simp only
      ring

/-- Witness for C2 (amended): the characterisation evaluated at the
counterexample input. -/
theorem score_additive_characterisation_witness :
    get_employee_score envB cycB wlB "e1" "早班A" 7 =
      (10 : ℚ) * wB.days
      + (if shB.required_skills ≠ [] then
          (if shB.required_skills.any (fun sk => empB.skills.contains sk) then
            (-10 : ℚ) else 50) else 0)
      + (if empB.preferred_shifts.contains "早班A" then (-5 : ℚ) else 0)
      + (0.1 : ℚ) * wB.hours
      + amendedRotationTerm (envB.fixedEmployees.contains "e1")
          (check_if_rested envB cycB "e1" 7)
          (((alookup cycB "e1").getD defaultCycle).current_type)
          (get_shift_type "早班A") :=
  score_additive_characterisation envB cycB wlB "e1" "早班A" 7 empB shB wB
    rfl rfl rfl

/-- Counterexample for C3: a successful assignment of a 晚班 shift to a
non-fixed employee who just rested while the current category is 其他
(Other, non-rotating per the claim): the code overwrites the category with
晚班, while the claim's update keeps 其他. -/
theorem rotation_update_counterexample :
    (assign envC3 8 "晚班X" stC3).2 = true ∧
    pickCandidate envC3 8 "晚班X" stC3 = some "e1" ∧
    ("e1" ∉ envC3.fixedEmployees) ∧
    check_if_rested envC3 stC3.cycle "e1" 8 = true ∧
    ((alookup stC3.cycle "e1").getD defaultCycle).current_type = some "其他" ∧
    (((alookup ((assign envC3 8 "晚班X" stC3).1).cycle "e1").getD
        defaultCycle).current_type,
      ((alookup ((assign envC3 8 "晚班X" stC3).1).cycle "e1").getD
        defaultCycle).last_work_date)
      ≠ claimCycleUpdate (check_if_rested envC3 stC3.cycle "e1" 8)
          (((alookup stC3.cycle "e1").getD defaultCycle).current_type)
          (get_shift_type "晚班X") 8 ∧
    ((alookup ((assign envC3 8 "晚班X" stC3).1).cycle "e1").getD
        defaultCycle).current_type = some "晚班" := by
  refine ⟨?_, ?_, ?_, ?_, ?_, ?_, ?_⟩ <;> decide

/-- Claim C3 (amended): on a successful assignment (chosen candidate `e`,
not a fixed-role employee), if `justRested` holds then the current category
becomes the shift's category and the last-worked date the assignment date,
regardless of the previous category; otherwise the category is initialised
to the shift's category only when previously unset and the last-worked date
becomes the assignment date. -/
theorem rotation_update_on_assign (env : Env) (d : Nat) (sid : String)
    (st : GenState) (e : String)
    (hfix : e ∉ env.fixedEmployees)
    (hsucc : (assign env d sid st).2 = true)
    (hpick : pickCandidate env d sid st = some e) :
    (check_if_rested env st.cycle e d = true →
      alookup ((assign env d sid st).1).cycle e =
        some ⟨some (get_shift_type sid), some d, true⟩)
    ∧ (check_if_rested env st.cycle e d = false →
      alookup ((assign env d sid st).1).cycle e =
        some ⟨some ((((alookup st.cycle e).getD
          defaultCycle).current_type).getD (get_shift_type sid)),
        some d, false⟩) := by
  have _ := hfix
  simp only [assign] at hsucc ⊢
  by_cases hfull : countAt st.schedule d sid ≥
      get_required_staff env sid (some d) (some st.schedule)
  · rw [if_pos hfull] at hsucc
    simp at hsucc
  · rw [if_neg hfull] at hsucc ⊢
    rw [hpick] at hsucc ⊢
    dsimp only at hsucc ⊢
    constructor <;> intro hjr
    · simp [applyAssign, updateCycleOnAssign, hjr, alookup_aset_self]
    · simp [applyAssign, updateCycleOnAssign, hjr, alookup_aset_self]

/-- Witness for C3 (amended): at the concrete counterexample input the
just-rested branch stamps the shift's category and the date. -/
theorem rotation_update_on_assign_witness :
    alookup ((assign envC3 8 "晚班X" stC3).1).cycle "e1" =
      some ⟨some (get_shift_type "晚班X"), some 8, true⟩ :=
  (rotation_update_on_assign envC3 8 "晚班X" stC3 "e1"
    (by decide) (by decide) (by decide)).1 (by decide)

/-- Counterexample for C5: with a known employee whose unavailable set
contains the date but an unknown shift id, the checker returns only the
unknown-shift violation, omitting the applicable unavailable-date
violation — the violations are not detected independently. -/
theorem conflict_check_not_independent :
    alookup envC5.employees "e1" = some empC5 ∧
    (5 : Nat) ∈ empC5.unavailable_days ∧
    check_conflicts envC5 "e1" "s1" 5 [] = [Conflict.unknownShift "s1"] ∧
    Conflict.unavailable "e1" 5 ∉ check_conflicts envC5 "e1" "s1" 5 [] := by
  refine ⟨?_, ?_, ?_, ?_⟩ <;> decide

/-- Claim C5 (amended): an unknown employee id returns exactly that
violation, an unknown shift id (with a known employee) returns exactly that
violation, and when both ids are known the four remaining violations are
each in the returned list iff their condition holds, the list being empty
exactly when none holds; the checker is a pure function. -/
theorem conflict_check_characterisation (env : Env) (e sid : String)
    (d : Nat) (sched : Schedule) :
    (alookup env.employees e = none →
      check_conflicts env e sid d sched = [Conflict.unknownEmployee e])
    ∧ (∀ emp, alookup env.employees e = some emp →
        alookup env.shifts sid = none →
        check_conflicts env e sid d sched = [Conflict.unknownShift sid])
    ∧ (∀ emp sh, alookup env.employees e = some emp →
        alookup env.shifts sid = some sh →
        ((Conflict.restDay e (weekdayName (d % 7)) ∈
            check_conflicts env e sid d sched ↔
          emp.rest_day ≠ "" ∧ weekdayName (d % 7) = emp.rest_day)
        ∧ (Conflict.unavailable e d ∈ check_conflicts env e sid d sched ↔
            emp.unavailable_days ≠ [] ∧ d ∈ emp.unavailable_days)
        ∧ (Conflict.missingSkills e ∈ check_conflicts env e sid d sched ↔
            sh.required_skills ≠ [] ∧
              ¬ (sh.required_skills.any (fun sk => emp.skills.contains sk)
                = true))
        ∧ (Conflict.alreadyAssigned e d ∈ check_conflicts env e sid d sched ↔
            (∃ entry, alookup sched d = some entry ∧
              (alookup entry.assignments e).isSome = true))
        ∧ (check_conflicts env e sid d sched = [] ↔
            ¬ (emp.rest_day ≠ "" ∧ weekdayName (d % 7) = emp.rest_day) ∧
            ¬ (emp.unavailable_days ≠ [] ∧ d ∈ emp.unavailable_days) ∧
            ¬ (sh.required_skills ≠ [] ∧
              ¬ (sh.required_skills.any (fun sk => emp.skills.contains sk)
                = true)) ∧
            ¬ (∃ entry, alookup sched d = some entry ∧
              (alookup entry.assignments e).isSome = true)))) := by
  refine ⟨?_, ?_, ?_⟩
  · intro hnone
    unfold check_conflicts
    rw [hnone]
  · intro emp he hnone
    unfold check_conflicts
    rw [he, hnone]
  · intro emp sh he hs
    unfold check_conflicts
    rw [he, hs]
    cases hsd : alookup sched d with
    | none =>
      by_cases hA : emp.rest_day ≠ "" ∧ weekdayName (d % 7) = emp.rest_day <;>
        by_cases hB : emp.unavailable_days ≠ [] ∧ d ∈ emp.unavailable_days <;>
        by_cases hC : sh.required_skills ≠ [] ∧
          ¬ (sh.required_skills.any (fun sk => emp.skills.contains sk) = true) <;>
        simp [hA, hB, hC]
    | some entry =>
      by_cases hA : emp.rest_day ≠ "" ∧ weekdayName (d % 7) = emp.rest_day <;>
        by_cases hB : emp.unavailable_days ≠ [] ∧ d ∈ emp.unavailable_days <;>
        by_cases hC : sh.required_skills ≠ [] ∧
          ¬ (sh.required_skills.any (fun sk => emp.skills.contains sk) = true) <;>
        by_cases hD : (alookup entry.assignments e).isSome = true <;>
        simp [hA, hB, hC, hD]

/-- Witness for C5 (amended): the characterisation applied to a concrete
known employee and shift, giving the rest-day membership equivalence. -/
theorem conflict_check_characterisation_witness :
    (Conflict.restDay "e1" (weekdayName (0 % 7)) ∈
        check_conflicts envB "e1" "早班A" 0 [] ↔
      empB.rest_day ≠ "" ∧ weekdayName (0 % 7) = empB.rest_day) :=
  ((conflict_check_characterisation envB "e1" "早班A" 0 []).2.2
    empB shB rfl rfl).1

end ScheduleSystem
